import Mathlib

/-!
A shallow embedding of TheiaSfM's reconstruction-builder orchestration
(`src/theia/sfm/reconstruction_builder.cc`) together with proofs of the
specification's claims about it.

The orchestrator's collaborators (`Reconstruction`, `ViewGraph`,
`TrackBuilder`, `TwoViewInfo`, the whole-scene `ReconstructionEstimator`
and the features-and-matches database) are not part of the provided
sources; they are modelled from the specification, each such definition
carries a doc comment starting with `Modelled from the spec:`.  The
functions of `reconstruction_builder.cc` itself are translated directly
from the source and carry the corresponding line numbers.
-/

namespace TheiaSfM

abbrev ViewId := Nat

abbrev TrackId := Nat

/-- Modelled from the spec: a view has a display name, an estimated flag and a
calibration prior.  Of the prior we record only whether its focal-length value
is set (`CameraIntrinsicsPrior().focal_length.is_set`), which is the only field
the reconstruction builder consults.  The `View` class is not in the provided
sources. -/
structure View where
  name : String
  focalSet : Bool
  isEstimated : Bool
deriving DecidableEq

/-- Modelled from the spec: a track is a set of `(view_id, observation)` pairs
plus an estimated flag.  Observations are abstracted to `Nat` keys.  The
`Track` class is not in the provided sources. -/
structure Track where
  observations : List (ViewId × Nat)
  isEstimated : Bool
deriving DecidableEq

/-- Lookup in an association list keyed by `Nat` identifiers (the shallow
embedding of an id-keyed map container). -/
def alookup {α : Type} (l : List (Nat × α)) (id : Nat) : Option α :=
  (l.find? (fun p => p.1 == id)).map (fun p => p.2)

/-- Removal of a key from an association list. -/
def aerase {α : Type} (l : List (Nat × α)) (id : Nat) : List (Nat × α) :=
  l.filter (fun p => p.1 != id)

/-- The keys of an association list. -/
def akeys {α : Type} (l : List (Nat × α)) : List Nat :=
  l.map Prod.fst

/-- Modelled from the spec: the `Reconstruction` container, an id-keyed
collection of views and of tracks.  Identifier counters are kept so that
identifiers are never reused once removed within a session.  The
`Reconstruction` class is not in the provided sources. -/
structure Reconstruction where
  views : List (ViewId × View)
  tracks : List (TrackId × Track)
  nextViewId : ViewId
  nextTrackId : TrackId
deriving DecidableEq

namespace Reconstruction

/-- Modelled from the spec: `Reconstruction::View(id)` (null when absent). -/
def view (r : Reconstruction) (id : ViewId) : Option View :=
  alookup r.views id

/-- Modelled from the spec: `Reconstruction::ViewIds()`. -/
def viewIds (r : Reconstruction) : List ViewId :=
  akeys r.views

/-- Modelled from the spec: `Reconstruction::NumViews()`. -/
def numViews (r : Reconstruction) : Nat :=
  r.views.length

/-- Modelled from the spec: `Reconstruction::RemoveView(id)` deletes the view
entry; counters are untouched so identifiers are never reused. -/
def removeView (r : Reconstruction) (id : ViewId) : Reconstruction :=
  { r with views := aerase r.views id }

/-- Modelled from the spec: `Reconstruction::Track(id)`. -/
def track (r : Reconstruction) (id : TrackId) : Option Track :=
  alookup r.tracks id

/-- Modelled from the spec: `Reconstruction::TrackIds()`. -/
def trackIds (r : Reconstruction) : List TrackId :=
  akeys r.tracks

/-- Modelled from the spec: `Reconstruction::NumTracks()`. -/
def numTracks (r : Reconstruction) : Nat :=
  r.tracks.length

/-- Modelled from the spec: `Reconstruction::RemoveTrack(id)`. -/
def removeTrack (r : Reconstruction) (id : TrackId) : Reconstruction :=
  { r with tracks := aerase r.tracks id }

/-- Modelled from the spec: `Reconstruction::ViewIdFromName(name)`; `none`
stands for `kInvalidViewId`. -/
def viewIdFromName (r : Reconstruction) (nm : String) : Option ViewId :=
  (r.views.find? (fun p => p.2.name == nm)).map (fun p => p.1)

/-- Modelled from the spec: `Reconstruction::AddView(name)` fails (returns the
invalid id) when a view of that name already exists, otherwise allocates the
next fresh view id.  Camera-intrinsics sharing groups are orthogonal to every
claim and are not modelled. -/
def addView (r : Reconstruction) (nm : String) : Option ViewId × Reconstruction :=
  if (r.views.find? (fun p => p.2.name == nm)).isSome then (none, r)
  else
    (some r.nextViewId,
     { r with
        views := r.views ++ [(r.nextViewId, { name := nm, focalSet := false, isEstimated := false })],
        nextViewId := r.nextViewId + 1 })

/-- Modelled from the spec: setting the camera-intrinsics prior of a view
(`*view->MutableCameraIntrinsicsPrior() = prior`), abstracted to the
focal-length-is-set flag. -/
def setFocalPrior (r : Reconstruction) (id : ViewId) (fs : Bool) : Reconstruction :=
  { r with
      views := r.views.map (fun p => if p.1 == id then (p.1, { p.2 with focalSet := fs }) else p) }

/-- Modelled from the spec: `Reconstruction::AddTrack` with the given
observations, allocating the next fresh track id. -/
def addTrack (r : Reconstruction) (obs : List (ViewId × Nat)) : Reconstruction :=
  { r with
      tracks := r.tracks ++ [(r.nextTrackId, { observations := obs, isEstimated := false })],
      nextTrackId := r.nextTrackId + 1 }

end Reconstruction

/-- Modelled from the spec: the relative two-view geometry (rotation plus
translation).  The actual parameters are matrices and vectors; for the claims
only the direction of the transform matters, so both components are abstracted
to integers, with direction reversal acting as negation. -/
structure TwoViewInfo where
  rotation : Int
  position : Int
deriving DecidableEq

/-- Modelled from the spec: `SwapCameras` turns the transform from view `a` to
view `b` into the transform from `b` to `a`.  In the additive abstraction of
relative poses the reversed transform negates both components. -/
def swapCameras (info : TwoViewInfo) : TwoViewInfo :=
  { rotation := -info.rotation, position := -info.position }

/-- Modelled from the spec: the view graph, a vertex set plus at most one
relative-geometry edge per unordered pair of views, keyed by the ordered pair
(smaller id, larger id).  The `ViewGraph` class is not in the provided
sources. -/
structure ViewGraph where
  vviews : List ViewId
  edges : List ((ViewId × ViewId) × TwoViewInfo)
deriving DecidableEq

namespace ViewGraph

/-- Modelled from the spec: `ViewGraph::NumViews()`. -/
def numViews (g : ViewGraph) : Nat :=
  g.vviews.length

/-- Modelled from the spec: `ViewGraph::NumEdges()`. -/
def numEdges (g : ViewGraph) : Nat :=
  g.edges.length

/-- Modelled from the spec: vertex insertion (skipped when already present). -/
def addVertex (g : ViewGraph) (id : ViewId) : ViewGraph :=
  if decide (id ∈ g.vviews) then g else { g with vviews := g.vviews ++ [id] }

/-- Modelled from the spec and the caller contract stated in
`reconstruction_builder.cc` lines 421-423: `ViewGraph::AddEdge` keys the edge
by the ordered pair (smaller id, larger id) and stores the supplied geometry
as given — "The view graph requires the two view info to specify the
transformation from the smaller view id to the larger view id", so the caller
pre-swaps the geometry.  An existing edge for the pair is overwritten. -/
def addEdge (g : ViewGraph) (id1 id2 : ViewId) (info : TwoViewInfo) : ViewGraph :=
  { vviews := ((g.addVertex id1).addVertex id2).vviews,
    edges := ((g.addVertex id1).addVertex id2).edges.filter
        (fun e => !(decide (e.1 = (min id1 id2, max id1 id2)))) ++
      [((min id1 id2, max id1 id2), info)] }

/-- Modelled from the spec: `ViewGraph::RemoveView(id)` deletes the view and
every incident edge. -/
def removeView (g : ViewGraph) (id : ViewId) : ViewGraph :=
  { vviews := g.vviews.filter (fun x => x != id),
    edges := g.edges.filter (fun e => e.1.1 != id && e.1.2 != id) }

/-- Modelled from the spec: edge lookup for an unordered pair of views. -/
def getEdge (g : ViewGraph) (id1 id2 : ViewId) : Option TwoViewInfo :=
  (g.edges.find? (fun e => decide (e.1 = (min id1 id2, max id1 id2)))).map (fun e => e.2)

end ViewGraph

/-- Modelled from the spec: the track builder accumulates raw feature
correspondences, to be unioned into connected components when
`BuildTracks` runs.  The `TrackBuilder` class is not in the provided
sources. -/
structure TrackBuilder where
  minTrackLength : Nat
  maxTrackLength : Nat
  correspondences : List ((ViewId × Nat) × (ViewId × Nat))
deriving DecidableEq

namespace TrackBuilder

/-- Modelled from the spec: `TrackBuilder::AddFeatureCorrespondence` records
one pairwise correspondence between two `(view, observation)` keys. -/
def addFeatureCorrespondence (tb : TrackBuilder) (v1 : ViewId) (o1 : Nat) (v2 : ViewId) (o2 : Nat) :
    TrackBuilder :=
  { tb with correspondences := tb.correspondences ++ [((v1, o1), (v2, o2))] }

end TrackBuilder

/-- Modelled from the spec: the connected component containing an observation
key (a fresh singleton when the key is not yet present). -/
def compOf (cs : List (List (ViewId × Nat))) (a : ViewId × Nat) : List (ViewId × Nat) :=
  match cs.find? (fun c => decide (a ∈ c)) with
  | some c => c
  | none => [a]

/-- Modelled from the spec: union the components of the two endpoints of one
correspondence (union-find over observation keys, §4.3). -/
def addCorr (cs : List (List (ViewId × Nat))) (a b : ViewId × Nat) :
    List (List (ViewId × Nat)) :=
  let ca := compOf cs a
  let cb := compOf cs b
  if ca = cb then
    cs.filter (fun c => !(decide (a ∈ c))) ++ [ca]
  else
    cs.filter (fun c => !(decide (a ∈ c)) && !(decide (b ∈ c))) ++
      [ca ++ cb.filter (fun x => !(decide (x ∈ ca)))]

/-- Modelled from the spec: the connected components of the accumulated
correspondences. -/
def components (corrs : List ((ViewId × Nat) × (ViewId × Nat))) :
    List (List (ViewId × Nat)) :=
  corrs.foldl (fun cs c => addCorr cs c.1 c.2) []

/-- Modelled from the spec: a finalized component is dropped when it would
contain two observations from the same view, or when its view span lies
outside the configured `[min_length, max_length]` range (§4.3). -/
def validTrack (tb : TrackBuilder) (comp : List (ViewId × Nat)) : Bool :=
  let viewsOf := comp.map (fun p => p.1)
  decide viewsOf.Nodup &&
    decide (tb.minTrackLength ≤ viewsOf.dedup.length) &&
    decide (viewsOf.dedup.length ≤ tb.maxTrackLength)

/-- Modelled from the spec: `TrackBuilder::BuildTracks(target)` finalizes each
valid connected component into a track of the target reconstruction. -/
def TrackBuilder.buildTracks (tb : TrackBuilder) (r : Reconstruction) : Reconstruction :=
  ((components tb.correspondences).filter (validTrack tb)).foldl Reconstruction.addTrack r

/-- An image-pair match record: the relative geometry from the first to the
second image, plus the per-feature correspondences `(feature1, feature2)`
(features abstracted to `Nat` keys). -/
structure ImagePairMatch where
  twoviewInfo : TwoViewInfo
  correspondences : List (Nat × Nat)
deriving DecidableEq

/-- The `ReconstructionBuilderOptions` fields the claims depend on
(`num_threads` is a C++ `int`, hence `Int`). -/
structure ReconstructionBuilderOptions where
  numThreads : Int
  onlyCalibratedViews : Bool
  reconstructLargestConnectedComponent : Bool
  minTrackLength : Nat
  maxTrackLength : Nat
deriving DecidableEq

/-- Modelled from the spec: the summary the external whole-scene estimator
returns — success/failure plus the subset of views and tracks it estimated
(§4.4 step 3). -/
structure EstimatorSummary where
  success : Bool
  estimatedViews : List ViewId
  estimatedTracks : List TrackId
deriving DecidableEq

/-- Modelled from the spec: the external estimator's effect on the working
reconstruction — it flags the views and tracks it estimated (the builder then
reads those flags through `IsEstimated()`). -/
def markEstimated (r : Reconstruction) (s : EstimatorSummary) : Reconstruction :=
  { r with
      views := r.views.map
        (fun p => if decide (p.1 ∈ s.estimatedViews) then (p.1, { p.2 with isEstimated := true }) else p),
      tracks := r.tracks.map
        (fun p => if decide (p.1 ∈ s.estimatedTracks) then (p.1, { p.2 with isEstimated := true }) else p) }

/-- The reconstruction builder's member state: options, the working
reconstruction and view graph, the track builder, and whether the feature
extractor-and-matcher is still alive (`feature_extractor_and_matcher_` is
non-null until `ExtractAndMatchFeatures` releases it). -/
structure BuilderState where
  options : ReconstructionBuilderOptions
  reconstruction : Reconstruction
  viewGraph : ViewGraph
  trackBuilder : TrackBuilder
  matcherActive : Bool
deriving DecidableEq

/-- The empty reconstruction a database-backed builder starts from. -/
def emptyReconstruction : Reconstruction :=
  { views := [], tracks := [], nextViewId := 0, nextTrackId := 0 }

/-- The empty view graph a database-backed builder starts from. -/
def emptyViewGraph : ViewGraph :=
  { vviews := [], edges := [] }

/-- reconstruction_builder.cc lines 151-160: the constructor taking a
pre-built reconstruction and view graph.  `CHECK_GT(options.num_threads, 0)`
is fatal (process-terminating), modelled as `none`.  In C++ this constructor
leaves `track_builder_` null; a track builder is still carried here so that the
member state is uniform. -/
def mkReconstructionBuilderFromScene (opts : ReconstructionBuilderOptions)
    (r : Reconstruction) (g : ViewGraph) (tb : TrackBuilder) : Option BuilderState :=
  if opts.numThreads ≤ 0 then none
  else some { options := opts, reconstruction := r, viewGraph := g, trackBuilder := tb,
              matcherActive := false }

/-- reconstruction_builder.cc lines 162-203: the constructor taking a
features-and-matches database; it starts from an empty scene, creates the track
builder from the track-length options, and sets up the feature extractor and
matcher.  `CHECK_GT(options.num_threads, 0)` is fatal, modelled as `none`. -/
def mkReconstructionBuilderFromDb (opts : ReconstructionBuilderOptions) : Option BuilderState :=
  if opts.numThreads ≤ 0 then none
  else some { options := opts, reconstruction := emptyReconstruction, viewGraph := emptyViewGraph,
              trackBuilder := { minTrackLength := opts.minTrackLength,
                                maxTrackLength := opts.maxTrackLength, correspondences := [] },
              matcherActive := true }

/-- reconstruction_builder.cc lines 91-119, `CreateEstimatedSubreconstruction`:
copy the working reconstruction, then drop every view that is not flagged
estimated, then drop every track that is not flagged estimated.  (In the
functional embedding the deep copy is the value itself.) -/
def createEstimatedSubreconstruction (r : Reconstruction) : Reconstruction :=
  let sub := r.viewIds.foldl
    (fun acc id =>
      match acc.view id with
      | none => acc
      | some v => if v.isEstimated then acc else acc.removeView id)
    r
  sub.trackIds.foldl
    (fun acc tid =>
      match acc.track tid with
      | none => acc
      | some t => if t.isEstimated then acc else acc.removeTrack tid)
    sub

/-- reconstruction_builder.cc lines 121-147, `RemoveEstimatedViewsAndTracks`:
remove every estimated view from both the working reconstruction and the
working view graph, then remove every estimated track from the working
reconstruction. -/
def removeEstimatedViewsAndTracks (r : Reconstruction) (g : ViewGraph) :
    Reconstruction × ViewGraph :=
  let pr := r.viewIds.foldl
    (fun acc id =>
      match acc.1.view id with
      | none => acc
      | some v => if v.isEstimated then (acc.1.removeView id, acc.2.removeView id) else acc)
    (r, g)
  let r2 := pr.1.trackIds.foldl
    (fun acc tid =>
      match acc.track tid with
      | none => acc
      | some t => if t.isEstimated then acc.removeTrack tid else acc)
    pr.1
  (r2, pr.2)

/-- reconstruction_builder.cc lines 246-255,
`ReconstructionBuilder::RemoveUncalibratedViews`: remove every view whose
focal-length prior is not set from both the working reconstruction and the
working view graph.  (The C++ loop dereferences the looked-up view without a
null check; for an id-keyed container the lookup always succeeds, and the
`none` branch here is that unreachable case.) -/
def removeUncalibratedViews (r : Reconstruction) (g : ViewGraph) :
    Reconstruction × ViewGraph :=
  r.viewIds.foldl
    (fun acc id =>
      match acc.1.view id with
      | none => acc
      | some v => if v.focalSet then acc else (acc.1.removeView id, acc.2.removeView id))
    (r, g)

/-- reconstruction_builder.cc lines 417-430,
`ReconstructionBuilder::AddMatchToViewGraph`: the view graph requires the two
view info to be the transformation from the smaller view id to the larger view
id, so the cameras are swapped when the caller supplied them in the opposite
order. -/
def addMatchToViewGraph (g : ViewGraph) (id1 id2 : ViewId) (m : ImagePairMatch) : ViewGraph :=
  g.addEdge id1 id2 (if id1 > id2 then swapCameras m.twoviewInfo else m.twoviewInfo)

/-- reconstruction_builder.cc lines 432-439,
`ReconstructionBuilder::AddTracksForMatch`: record every feature
correspondence of the match with the track builder. -/
def addTracksForMatch (tb : TrackBuilder) (id1 id2 : ViewId) (m : ImagePairMatch) : TrackBuilder :=
  m.correspondences.foldl
    (fun acc c => acc.addFeatureCorrespondence id1 c.1 id2 c.2) tb

/-- reconstruction_builder.cc lines 317-348,
`ReconstructionBuilder::AddTwoViewMatch`: resolve both image names
(`CHECK_NE(..., kInvalidViewId)` is fatal, modelled as `none`); when only
calibrated views are wanted and either view lacks a focal-length prior the
match is skipped and `true` is returned with the state untouched; otherwise
the match is added to the view graph and its correspondences to the track
builder. -/
def addTwoViewMatch (st : BuilderState) (image1 image2 : String) (m : ImagePairMatch) :
    Option (Bool × BuilderState) :=
  match st.reconstruction.viewIdFromName image1, st.reconstruction.viewIdFromName image2 with
  | some id1, some id2 =>
    match st.reconstruction.view id1, st.reconstruction.view id2 with
    | some v1, some v2 =>
      if st.options.onlyCalibratedViews && (!v1.focalSet || !v2.focalSet) then
        some (true, st)
      else
        some (true, { st with
          viewGraph := addMatchToViewGraph st.viewGraph id1 id2 m,
          trackBuilder := addTracksForMatch st.trackBuilder id1 id2 m })
    | _, _ => none
  | _, _ => none

/-- reconstruction_builder.cc lines 62-89 and 207-244,
`ReconstructionBuilder::AddImage` (via `AddViewToReconstruction`): add a view
of that name (returning `false` when the name is already taken), set the prior
when one was supplied, then hand the image to the feature extractor and
matcher.  When the matcher has already been released
(`feature_extractor_and_matcher_` is null after `ExtractAndMatchFeatures`)
that call dereferences a null pointer, modelled as the fatal outcome
`none`. -/
def addImage (st : BuilderState) (nm : String) (prior : Option Bool) :
    Option (Bool × BuilderState) :=
  match st.reconstruction.addView nm with
  | (none, _) => some (false, st)
  | (some vid, r1) =>
    let r2 := match prior with
      | some fs => r1.setFocalPrior vid fs
      | none => r1
    if st.matcherActive then some (true, { st with reconstruction := r2 })
    else none

/-- Modelled from the spec: the features-and-matches database content as it
stands after feature extraction and matching — per-image camera-intrinsics
priors (abstracted to the focal-length-is-set flag) and per-image-pair match
records keyed by the two image names. -/
structure MatchesDb where
  priors : List (String × Bool)
  pairMatches : List ((String × String) × ImagePairMatch)
deriving DecidableEq

/-- reconstruction_builder.cc lines 283-296: copy each database
camera-intrinsics prior onto the view of the same name.
`MutableView(kInvalidViewId)` returns null and the subsequent dereference is
fatal, modelled as `none`. -/
def applyPriors (r : Reconstruction) : List (String × Bool) → Option Reconstruction
  | [] => some r
  | (nm, fs) :: rest =>
    match r.viewIdFromName nm with
    | none => none
    | some id => applyPriors (r.setFocalPrior id fs) rest

/-- reconstruction_builder.cc lines 304-312: ingest every match of the
database through `AddTwoViewMatch`. -/
def ingestMatches (st : BuilderState) :
    List ((String × String) × ImagePairMatch) → Option BuilderState
  | [] => some st
  | (k, m) :: rest =>
    match addTwoViewMatch st k.1 k.2 m with
    | none => none
    | some pr => ingestMatches pr.2 rest

/-- reconstruction_builder.cc lines 264-315,
`ReconstructionBuilder::ExtractAndMatchFeatures`:
`CHECK_EQ(view_graph_->NumViews(), 0)` is fatal when any two-view match has
already been ingested; calling it again after the matcher was released
dereferences a null pointer, also fatal.  Otherwise the matcher runs and is
released, the database priors are copied onto the views, and every database
match is ingested. -/
def extractAndMatchFeatures (st : BuilderState) (db : MatchesDb) : Option BuilderState :=
  if st.viewGraph.numViews ≠ 0 then none
  else if st.matcherActive = false then none
  else
    match applyPriors st.reconstruction db.priors with
    | none => none
    | some r1 =>
      ingestMatches { st with reconstruction := r1, matcherActive := false } db.pairMatches

/-- The outcome of `BuildReconstruction`: `fatal` models a failed `CHECK`
(process termination); `incomplete` is a run whose estimator script ran out
while the loop still wanted another round (the carried state is the working
scene on which the estimator would be invoked next); `done` is a completed run
with its boolean result, the output reconstructions and the final working
scene. -/
inductive BuildOutcome where
  | fatal : BuildOutcome
  | incomplete : Reconstruction × ViewGraph → List Reconstruction → BuildOutcome
  | done : Bool → List Reconstruction → Reconstruction × ViewGraph → BuildOutcome
deriving DecidableEq

namespace BuildOutcome

/-- The boolean result of a completed run (`false` for the other outcomes). -/
def okOf : BuildOutcome → Bool
  | .done ok _ _ => ok
  | .incomplete _ _ => false
  | .fatal => false

/-- The output reconstructions accumulated by a run. -/
def outsOf : BuildOutcome → List Reconstruction
  | .done _ outs _ => outs
  | .incomplete _ outs => outs
  | .fatal => []

/-- The number of output reconstructions accumulated by a run. -/
def numOut (o : BuildOutcome) : Nat :=
  o.outsOf.length

/-- Whether the run completed. -/
def isDone : BuildOutcome → Bool
  | .done _ _ _ => true
  | .incomplete _ _ => false
  | .fatal => false

end BuildOutcome

/-- reconstruction_builder.cc lines 367-414, the estimation loop of
`ReconstructionBuilder::BuildReconstruction`.  Each round invokes the external
whole-scene estimator; the estimator is external, so a run is parametrized by
the script of summaries it returns round by round (any actual run is described
by some script).  On failure the loop returns `reconstructions->size() > 0`;
on success the estimated subreconstruction is snapshotted, the estimated
views and tracks are removed from the working scene, and the loop stops after
the first round in single-largest-component mode or when fewer than 3 views
remain. -/
def buildLoop (opts : ReconstructionBuilderOptions) :
    List EstimatorSummary → Reconstruction → ViewGraph → List Reconstruction → BuildOutcome
  | [], r, g, outs =>
    if 1 < r.numViews then .incomplete (r, g) outs
    else .done true outs (r, g)
  | s :: rest, r, g, outs =>
    if 1 < r.numViews then
      if s.success then
        if opts.reconstructLargestConnectedComponent then
          .done (decide (0 < (outs ++ [createEstimatedSubreconstruction (markEstimated r s)]).length))
            (outs ++ [createEstimatedSubreconstruction (markEstimated r s)])
            (removeEstimatedViewsAndTracks (markEstimated r s) g)
        else if (removeEstimatedViewsAndTracks (markEstimated r s) g).1.numViews < 3 then
          .done (decide (0 < (outs ++ [createEstimatedSubreconstruction (markEstimated r s)]).length))
            (outs ++ [createEstimatedSubreconstruction (markEstimated r s)])
            (removeEstimatedViewsAndTracks (markEstimated r s) g)
        else
          buildLoop opts rest (removeEstimatedViewsAndTracks (markEstimated r s) g).1
            (removeEstimatedViewsAndTracks (markEstimated r s) g).2
            (outs ++ [createEstimatedSubreconstruction (markEstimated r s)])
      else .done (decide (0 < outs.length)) outs (r, g)
    else .done true outs (r, g)

/-- reconstruction_builder.cc lines 356-365: the preprocessing
`BuildReconstruction` performs before entering the loop — build tracks when
the reconstruction has none, then drop uncalibrated views when only
calibrated views are wanted. -/
def preprocessedState (opts : ReconstructionBuilderOptions) (tb : TrackBuilder)
    (r : Reconstruction) (g : ViewGraph) : Reconstruction × ViewGraph :=
  if opts.onlyCalibratedViews then
    removeUncalibratedViews (if r.numTracks == 0 then tb.buildTracks r else r) g
  else
    (if r.numTracks == 0 then tb.buildTracks r else r, g)

/-- reconstruction_builder.cc lines 350-415,
`ReconstructionBuilder::BuildReconstruction`:
`CHECK_GE(view_graph_->NumViews(), 2)` is fatal; otherwise preprocessing runs
and the estimation loop starts with an empty output list. -/
def buildReconstruction (opts : ReconstructionBuilderOptions) (tb : TrackBuilder)
    (script : List EstimatorSummary) (r : Reconstruction) (g : ViewGraph) : BuildOutcome :=
  if g.numViews < 2 then .fatal
  else
    buildLoop opts script (preprocessedState opts tb r g).1 (preprocessedState opts tb r g).2 []

/-- The sequence of working reconstructions on which the estimation loop of
`buildLoop` invokes the external estimator, round by round; it mirrors
`buildLoop` branch for branch (the estimator is invoked exactly when the
while-condition `NumViews > 1` holds and a script entry is available). -/
def estimatorInputs (opts : ReconstructionBuilderOptions) :
    List EstimatorSummary → Reconstruction → ViewGraph → List Reconstruction
  | [], _, _ => []
  | s :: rest, r, g =>
    if 1 < r.numViews then
      r ::
        (if s.success then
          if opts.reconstructLargestConnectedComponent then []
          else if (removeEstimatedViewsAndTracks (markEstimated r s) g).1.numViews < 3 then []
          else
            estimatorInputs opts rest (removeEstimatedViewsAndTracks (markEstimated r s) g).1
              (removeEstimatedViewsAndTracks (markEstimated r s) g).2
        else [])
    else []

/-- The estimator-input sequence of a whole `buildReconstruction` run (empty
when the entry `CHECK` fires, since the process terminates before any
invocation). -/
def estimatorInputsTop (opts : ReconstructionBuilderOptions) (tb : TrackBuilder)
    (script : List EstimatorSummary) (r : Reconstruction) (g : ViewGraph) :
    List Reconstruction :=
  if g.numViews < 2 then []
  else
    estimatorInputs opts script (preprocessedState opts tb r g).1
      (preprocessedState opts tb r g).2

/-- One step of the source loops that conditionally remove entries from an
id-keyed container: look the id up, keep the entry when `keep` holds of its
value, remove it otherwise.  This is the shared shape of the view and track
loops in `CreateEstimatedSubreconstruction`, `RemoveEstimatedViewsAndTracks`
and `RemoveUncalibratedViews`. -/
def pruneStep {α : Type} (keep : α → Bool) (acc : List (Nat × α)) (id : Nat) : List (Nat × α) :=
  match alookup acc id with
  | none => acc
  | some v => if keep v then acc else aerase acc id

/-- The paired variant of `pruneStep` that mirrors each removal in the view
graph, as the view loops of `RemoveEstimatedViewsAndTracks` and
`RemoveUncalibratedViews` do. -/
def pairPruneStep {α : Type} (keep : α → Bool) (acc : List (Nat × α) × ViewGraph) (id : Nat) :
    List (Nat × α) × ViewGraph :=
  match alookup acc.1 id with
  | none => acc
  | some v => if keep v then acc else (aerase acc.1 id, acc.2.removeView id)

/-- Whether a pruning pass with predicate `keep` removes identifier `id`
from the container `l`. -/
def removedIn {α : Type} (keep : α → Bool) (l : List (Nat × α)) (id : Nat) : Bool :=
  match alookup l id with
  | some v => !(keep v)
  | none => false

/-- Removal of a set of views (and their incident edges) from a view graph,
the cumulative effect of calling `ViewGraph::RemoveView` on each element. -/
def removeViewSet (g : ViewGraph) (s : List Nat) : ViewGraph :=
  { vviews := g.vviews.filter (fun x => !(decide (x ∈ s))),
    edges := g.edges.filter (fun e => !(decide (e.1.1 ∈ s)) && !(decide (e.1.2 ∈ s))) }

/-- The view ids of `r` whose view is flagged estimated (the ids that a
`RemoveEstimatedViewsAndTracks` pass removes). -/
def estimatedViewIds (r : Reconstruction) : List ViewId :=
  r.viewIds.filter (fun id => removedIn (fun v => !v.isEstimated) r.views id)

/-- The synchronization invariant between the working view graph and its
paired reconstruction: every view id present in the view graph is also
present in the reconstruction. -/
def viewsInSync (g : ViewGraph) (r : Reconstruction) : Prop :=
  ∀ id, id ∈ g.vviews → id ∈ r.viewIds

instance (g : ViewGraph) (r : Reconstruction) : Decidable (viewsInSync g r) := by
  unfold viewsInSync
  exact List.decidableBAll _ _

/-- A view literal. -/
def mkView (nm : String) (fs est : Bool) : View :=
  { name := nm, focalSet := fs, isEstimated := est }

/-- Concrete run for C1: only-calibrated-views mode with two uncalibrated
views, so preprocessing empties the working scene and the loop never runs. -/
def c1opts : ReconstructionBuilderOptions :=
  { numThreads := 1, onlyCalibratedViews := true, reconstructLargestConnectedComponent := false,
    minTrackLength := 2, maxTrackLength := 10 }

/-- C1 input reconstruction: two uncalibrated views and one pre-built track. -/
def c1r : Reconstruction :=
  { views := [(0, mkView "a" false false), (1, mkView "b" false false)],
    tracks := [(0, { observations := [], isEstimated := false })],
    nextViewId := 2, nextTrackId := 1 }

/-- C1 input view graph: the two views and their edge. -/
def c1g : ViewGraph :=
  { vviews := [0, 1], edges := [((0, 1), { rotation := 1, position := 1 })] }

/-- C1 input track builder (empty). -/
def c1tb : TrackBuilder :=
  { minTrackLength := 2, maxTrackLength := 10, correspondences := [] }

/-- The working scene at the end of the C1 run: no views left. -/
def c1end : Reconstruction × ViewGraph :=
  ({ views := [], tracks := [(0, { observations := [], isEstimated := false })],
     nextViewId := 2, nextTrackId := 1 },
   { vviews := [], edges := [] })

/-- A malformed option set for C6: zero worker threads. -/
def c6badOpts : ReconstructionBuilderOptions :=
  { numThreads := 0, onlyCalibratedViews := false, reconstructLargestConnectedComponent := false,
    minTrackLength := 2, maxTrackLength := 10 }

/-- Options for the C3 and C4 runs: both modes off. -/
def c3opts : ReconstructionBuilderOptions :=
  { numThreads := 1, onlyCalibratedViews := false, reconstructLargestConnectedComponent := false,
    minTrackLength := 2, maxTrackLength := 10 }

/-- C3 input reconstruction: five views and no tracks, so the pre-loop
track-building step runs. -/
def c3r : Reconstruction :=
  { views := [(0, mkView "a" false false), (1, mkView "b" false false), (2, mkView "c" false false),
              (3, mkView "d" false false), (4, mkView "e" false false)],
    tracks := [], nextViewId := 5, nextTrackId := 0 }

/-- C3 input view graph over the five views. -/
def c3g : ViewGraph :=
  { vviews := [0, 1, 2, 3, 4], edges := [] }

/-- C3 track builder: correspondences spanning views 0-1 and views 2-3, each
yielding one track. -/
def c3tb : TrackBuilder :=
  { minTrackLength := 2, maxTrackLength := 10,
    correspondences := [((0, 0), (1, 0)), ((2, 1), (3, 1))] }

/-- C3 estimator script: round 1 succeeds, estimating views 0 and 1 and both
tracks (so no tracks remain); round 2 fails. -/
def c3script : List EstimatorSummary :=
  [{ success := true, estimatedViews := [0, 1], estimatedTracks := [0, 1] },
   { success := false, estimatedViews := [], estimatedTracks := [] }]

/-- The first estimator input of the C3 run. -/
def c3first : Reconstruction :=
  (estimatorInputsTop c3opts c3tb c3script c3r c3g).headD emptyReconstruction

/-- The remaining estimator inputs of the C3 run. -/
def c3rest : List Reconstruction :=
  (estimatorInputsTop c3opts c3tb c3script c3r c3g).tail

/-- The second estimator input of the C3 run. -/
def c3second : Reconstruction :=
  (estimatorInputsTop c3opts c3tb c3script c3r c3g).getD 1 emptyReconstruction

/-- Options for the C4 run with single-largest-component mode on. -/
def c4onOpts : ReconstructionBuilderOptions :=
  { numThreads := 1, onlyCalibratedViews := false, reconstructLargestConnectedComponent := true,
    minTrackLength := 2, maxTrackLength := 10 }

/-- C4 input reconstruction: two disjoint components, views {0,1} with track 0
and views {2,3,4} with track 1. -/
def c4r : Reconstruction :=
  { views := [(0, mkView "a" false false), (1, mkView "b" false false), (2, mkView "c" false false),
              (3, mkView "d" false false), (4, mkView "e" false false)],
    tracks := [(0, { observations := [(0, 0), (1, 0)], isEstimated := false }),
               (1, { observations := [(2, 0), (3, 0), (4, 0)], isEstimated := false })],
    nextViewId := 5, nextTrackId := 2 }

/-- C4 input view graph. -/
def c4g : ViewGraph :=
  { vviews := [0, 1, 2, 3, 4],
    edges := [((0, 1), { rotation := 1, position := 0 }), ((2, 3), { rotation := 2, position := 0 }),
              ((3, 4), { rotation := 3, position := 0 })] }

/-- C4 track builder (unused: tracks are pre-built). -/
def c4tb : TrackBuilder :=
  { minTrackLength := 2, maxTrackLength := 10, correspondences := [] }

/-- C4 estimator script: each round fully estimates one component. -/
def c4script : List EstimatorSummary :=
  [{ success := true, estimatedViews := [0, 1], estimatedTracks := [0] },
   { success := true, estimatedViews := [2, 3, 4], estimatedTracks := [1] }]

/-- Concrete state for the C8 witness: two views, untouched matcher. -/
def c8st : BuilderState :=
  { options := c3opts,
    reconstruction :=
      { views := [(0, mkView "a" false false), (1, mkView "b" false false)],
        tracks := [], nextViewId := 2, nextTrackId := 0 },
    viewGraph := emptyViewGraph,
    trackBuilder := c1tb,
    matcherActive := true }

/-- Concrete database for the C8 witness: one verified match between the two
images. -/
def c8db : MatchesDb :=
  { priors := [("a", true)],
    pairMatches := [(("a", "b"), { twoviewInfo := { rotation := 4, position := 5 },
                                   correspondences := [(0, 0)] })] }

/-- The state after the C8 extract-and-match step. -/
def c8end : BuilderState :=
  match extractAndMatchFeatures c8st c8db with
  | some st => st
  | none => c8st

/-- The reconstruction produced when one more image is added to the C8
post-matching state. -/
def c8r1 : Reconstruction :=
  (c8end.reconstruction.addView "c").2

/-- Concrete state for the C10 witness: only-calibrated-views mode with one
calibrated and one uncalibrated view. -/
def c10st : BuilderState :=
  { options := c1opts,
    reconstruction :=
      { views := [(0, mkView "a" true false), (1, mkView "b" false false)],
        tracks := [], nextViewId := 2, nextTrackId := 0 },
    viewGraph := emptyViewGraph,
    trackBuilder := c1tb,
    matcherActive := true }

/-- Concrete match for the C10 witness. -/
def c10m : ImagePairMatch :=
  { twoviewInfo := { rotation := 9, position := 9 }, correspondences := [(3, 4)] }

/-- Concrete reconstruction for the C2/C7/C9 witnesses: one estimated
calibrated view, one unestimated uncalibrated view, one estimated and one
unestimated track. -/
def c2r : Reconstruction :=
  { views := [(0, mkView "a" true true), (1, mkView "b" false false)],
    tracks := [(0, { observations := [], isEstimated := true }),
               (1, { observations := [], isEstimated := false })],
    nextViewId := 2, nextTrackId := 2 }

/-- Concrete view graph for the C2/C7/C9 witnesses. -/
def c2g : ViewGraph :=
  { vviews := [0, 1], edges := [((0, 1), { rotation := 2, position := 3 })] }

theorem alookup_cons {α : Type} (p : Nat × α) (l : List (Nat × α)) (id : Nat) :
    alookup (p :: l) id = if p.1 = id then some p.2 else alookup l id := by
  by_cases h : p.1 = id
  · simp [alookup, List.find?_cons_of_pos, h]
  · have hb : ¬((p.1 == id) = true) := by simpa using h
    simp [alookup, List.find?_cons_of_neg _ hb, h]

theorem alookup_eq_none_iff {α : Type} {l : List (Nat × α)} {id : Nat} :
    alookup l id = none ↔ ∀ p ∈ l, p.1 ≠ id := by
  unfold alookup
  rw [Option.map_eq_none', List.find?_eq_none]
  constructor
  · intro h p hp
    simpa using h p hp
  · intro h p hp
    simpa using h p hp

theorem alookup_eq_some_mem {α : Type} {l : List (Nat × α)} {id : Nat} {v : α}
    (h : alookup l id = some v) : (id, v) ∈ l := by
  induction l with
  | nil => simp [alookup] at h
  | cons p rest ih =>
    rw [alookup_cons] at h
    by_cases hp : p.1 = id
    · rw [if_pos hp] at h
      have hpv : p = (id, v) := by
        cases p
        simp_all
      rw [hpv]
      exact List.mem_cons_self _ _
    · rw [if_neg hp] at h
      exact List.mem_cons.mpr (Or.inr (ih h))

theorem alookup_of_mem_nodup {α : Type} {l : List (Nat × α)} {id : Nat} {v : α}
    (hn : (akeys l).Nodup) (hm : (id, v) ∈ l) : alookup l id = some v := by
  induction l with
  | nil => simp at hm
  | cons p rest ih =>
    simp only [akeys, List.map_cons, List.nodup_cons] at hn
    rcases List.mem_cons.mp hm with h | h
    · rw [alookup_cons, ← h]
      simp
    · have hk : id ∈ List.map Prod.fst rest := List.mem_map.mpr ⟨(id, v), h, rfl⟩
      have hne : p.1 ≠ id := fun he => hn.1 (he ▸ hk)
      rw [alookup_cons, if_neg hne]
      exact ih (by simpa [akeys] using hn.2) h

theorem alookup_unique {α : Type} {l : List (Nat × α)} (hn : (akeys l).Nodup) {p : Nat × α}
    (hp : p ∈ l) : alookup l p.1 = some p.2 :=
  alookup_of_mem_nodup hn hp

theorem alookup_aerase_ne {α : Type} {l : List (Nat × α)} {a x : Nat} (h : x ≠ a) :
    alookup (aerase l a) x = alookup l x := by
  induction l with
  | nil => rfl
  | cons p rest ih =>
    rw [aerase, List.filter_cons]
    by_cases hp : p.1 = a
    · have hb : (p.1 != a) = false := by simp [hp]
      rw [hb, if_neg (by simp)]
      have hx : p.1 ≠ x := by
        rw [hp]
        exact fun he => h he.symm
      rw [alookup_cons, if_neg hx]
      exact ih
    · have hb : (p.1 != a) = true := by simp [hp]
      rw [hb, if_pos rfl]
      rw [alookup_cons, alookup_cons]
      by_cases hx : p.1 = x
      · rw [if_pos hx, if_pos hx]
      · rw [if_neg hx, if_neg hx]
        exact ih

theorem alookup_aerase_self {α : Type} (l : List (Nat × α)) (a : Nat) :
    alookup (aerase l a) a = none := by
  rw [alookup_eq_none_iff]
  intro p hp
  have := (List.mem_filter.mp hp).2
  simpa using this

theorem akeys_aerase_nodup {α : Type} {l : List (Nat × α)} (hn : (akeys l).Nodup) (a : Nat) :
    (akeys (aerase l a)).Nodup :=
  List.Nodup.sublist ((List.filter_sublist l).map Prod.fst) hn

theorem alookup_isSome_of_mem_keys {α : Type} {l : List (Nat × α)} {x : Nat}
    (h : x ∈ akeys l) : ∃ v, alookup l x = some v := by
  rcases List.mem_map.mp h with ⟨p, hp, hpx⟩
  cases hv : alookup l x with
  | some v => exact ⟨v, rfl⟩
  | none =>
    exact absurd hpx (alookup_eq_none_iff.mp hv p hp)

theorem removeViewSet_nil (g : ViewGraph) : removeViewSet g [] = g := by
  cases g
  simp [removeViewSet]

theorem removeView_eq_removeViewSet (g : ViewGraph) (a : ViewId) :
    g.removeView a = removeViewSet g [a] := by
  unfold ViewGraph.removeView removeViewSet
  congr 1
  · apply List.filter_congr
    intro x _
    by_cases h : x = a <;> simp [h]
  · apply List.filter_congr
    intro e _
    by_cases h1 : e.1.1 = a <;> by_cases h2 : e.1.2 = a <;> simp [h1, h2]

theorem removeViewSet_comp (g : ViewGraph) (s t : List Nat) :
    removeViewSet (removeViewSet g s) t = removeViewSet g (s ++ t) := by
  unfold removeViewSet
  congr 1
  · rw [List.filter_filter]
    apply List.filter_congr
    intro x _
    by_cases hs : x ∈ s <;> by_cases ht : x ∈ t <;> simp [hs, ht]
  · rw [List.filter_filter]
    apply List.filter_congr
    intro e _
    by_cases hs1 : e.1.1 ∈ s <;> by_cases ht1 : e.1.1 ∈ t <;>
      by_cases hs2 : e.1.2 ∈ s <;> by_cases ht2 : e.1.2 ∈ t <;>
        simp [hs1, ht1, hs2, ht2]

theorem removeViewSet_congr (g : ViewGraph) {s t : List Nat} (h : ∀ x, x ∈ s ↔ x ∈ t) :
    removeViewSet g s = removeViewSet g t := by
  unfold removeViewSet
  congr 1
  · apply List.filter_congr
    intro x _
    simp [h x]
  · apply List.filter_congr
    intro e _
    simp [h e.1.1, h e.1.2]

theorem removedIn_aerase_ne {α : Type} (keep : α → Bool) {l : List (Nat × α)} {a x : Nat}
    (h : x ≠ a) : removedIn keep (aerase l a) x = removedIn keep l x := by
  unfold removedIn
  rw [alookup_aerase_ne h]

theorem removedIn_aerase_self {α : Type} (keep : α → Bool) (l : List (Nat × α)) (a : Nat) :
    removedIn keep (aerase l a) a = false := by
  unfold removedIn
  rw [alookup_aerase_self]

theorem pruneFold_eq_filter {α : Type} (keep : α → Bool) :
    ∀ (ids : List Nat) (l : List (Nat × α)), (akeys l).Nodup →
      ids.foldl (pruneStep keep) l =
        l.filter (fun p => !(decide (p.1 ∈ ids)) || keep p.2) := by
  intro ids
  induction ids with
  | nil =>
    intro l _
    rw [List.foldl_nil]
    exact ((List.filter_congr (fun p _ => by simp)).trans (List.filter_true l)).symm
  | cons a rest ih =>
    intro l hn
    rw [List.foldl_cons]
    cases hl : alookup l a with
    | none =>
      have hstep : pruneStep keep l a = l := by simp [pruneStep, hl]
      rw [hstep, ih l hn]
      apply List.filter_congr
      intro p hp
      have hpa : p.1 ≠ a := alookup_eq_none_iff.mp hl p hp
      simp [List.mem_cons, hpa]
    | some v =>
      cases hk : keep v with
      | true =>
        have hstep : pruneStep keep l a = l := by simp [pruneStep, hl, hk]
        rw [hstep, ih l hn]
        apply List.filter_congr
        intro p hp
        by_cases hpa : p.1 = a
        · have hv : alookup l a = some p.2 := by
            rw [← hpa]
            exact alookup_unique hn hp
          rw [hl] at hv
          have hkv : keep p.2 = true := by
            rw [← Option.some.inj hv]
            exact hk
          simp [List.mem_cons, hpa, hkv]
        · simp [List.mem_cons, hpa]
      | false =>
        have hstep : pruneStep keep l a = aerase l a := by simp [pruneStep, hl, hk]
        rw [hstep, ih (aerase l a) (akeys_aerase_nodup hn a)]
        rw [aerase, List.filter_filter]
        apply List.filter_congr
        intro p hp
        by_cases hpa : p.1 = a
        · have hv : alookup l a = some p.2 := by
            rw [← hpa]
            exact alookup_unique hn hp
          rw [hl] at hv
          have hkv : keep p.2 = false := by
            rw [← Option.some.inj hv]
            exact hk
          simp [List.mem_cons, hpa, hkv]
        · simp [List.mem_cons, hpa]

theorem pairPruneFold_eq {α : Type} (keep : α → Bool) :
    ∀ (ids : List Nat) (l : List (Nat × α)) (g : ViewGraph), (akeys l).Nodup →
      ids.foldl (pairPruneStep keep) (l, g) =
        (l.filter (fun p => !(decide (p.1 ∈ ids)) || keep p.2),
         removeViewSet g (ids.filter (fun id => removedIn keep l id))) := by
  intro ids
  induction ids with
  | nil =>
    intro l g _
    rw [List.foldl_nil, List.filter_nil, removeViewSet_nil]
    rw [((List.filter_congr (fun (p : Nat × α) _ => by simp)).trans (List.filter_true l))]
  | cons a rest ih =>
    intro l g hn
    rw [List.foldl_cons]
    cases hl : alookup l a with
    | none =>
      have hstep : pairPruneStep keep (l, g) a = (l, g) := by simp [pairPruneStep, hl]
      rw [hstep, ih l g hn]
      have hrm : removedIn keep l a = false := by simp [removedIn, hl]
      simp only [Prod.mk.injEq]
      refine ⟨List.filter_congr ?_, ?_⟩
      · intro p hp
        have hpa : p.1 ≠ a := alookup_eq_none_iff.mp hl p hp
        simp [List.mem_cons, hpa]
      · simp only [List.filter_cons, hrm]
        simp
    | some v =>
      cases hk : keep v with
      | true =>
        have hstep : pairPruneStep keep (l, g) a = (l, g) := by simp [pairPruneStep, hl, hk]
        rw [hstep, ih l g hn]
        have hrm : removedIn keep l a = false := by simp [removedIn, hl, hk]
        simp only [Prod.mk.injEq]
        refine ⟨List.filter_congr ?_, ?_⟩
        · intro p hp
          by_cases hpa : p.1 = a
          · have hv : alookup l a = some p.2 := by
              rw [← hpa]
              exact alookup_unique hn hp
            rw [hl] at hv
            have hkv : keep p.2 = true := by
              rw [← Option.some.inj hv]
              exact hk
            simp [List.mem_cons, hpa, hkv]
          · simp [List.mem_cons, hpa]
        · simp only [List.filter_cons, hrm]
          simp
      | false =>
        have hstep : pairPruneStep keep (l, g) a = (aerase l a, g.removeView a) := by
          simp [pairPruneStep, hl, hk]
        rw [hstep, ih (aerase l a) (g.removeView a) (akeys_aerase_nodup hn a)]
        have hrm : removedIn keep l a = true := by simp [removedIn, hl, hk]
        simp only [Prod.mk.injEq]
        refine ⟨?_, ?_⟩
        · rw [aerase, List.filter_filter]
          apply List.filter_congr
          intro p hp
          by_cases hpa : p.1 = a
          · have hv : alookup l a = some p.2 := by
              rw [← hpa]
              exact alookup_unique hn hp
            rw [hl] at hv
            have hkv : keep p.2 = false := by
              rw [← Option.some.inj hv]
              exact hk
            simp [List.mem_cons, hpa, hkv]
          · simp [List.mem_cons, hpa]
        · rw [removeView_eq_removeViewSet, removeViewSet_comp]
          apply removeViewSet_congr
          intro x
          constructor
          · intro hx
            rcases List.mem_append.mp hx with hx | hx
            · have hxa : x = a := by simpa using hx
              subst hxa
              exact List.mem_filter.mpr ⟨List.mem_cons_self _ _, by simpa using hrm⟩
            · rcases List.mem_filter.mp hx with ⟨hxr, hxrm⟩
              have hxa : x ≠ a := by
                intro he
                rw [he] at hxrm
                rw [removedIn_aerase_self] at hxrm
                simp at hxrm
              rw [removedIn_aerase_ne keep hxa] at hxrm
              exact List.mem_filter.mpr ⟨List.mem_cons_of_mem _ hxr, hxrm⟩
          · intro hx
            rcases List.mem_filter.mp hx with ⟨hxr, hxrm⟩
            by_cases hxa : x = a
            · subst hxa
              exact List.mem_append.mpr (Or.inl (by simp))
            · have hxr2 : x ∈ rest := by
                rcases List.mem_cons.mp hxr with he | hr
                · exact absurd he hxa
                · exact hr
              refine List.mem_append.mpr (Or.inr (List.mem_filter.mpr ⟨hxr2, ?_⟩))
              rw [removedIn_aerase_ne keep hxa]
              exact hxrm

theorem viewFold_bridge (keep : View → Bool) (f : Reconstruction → Nat → Reconstruction)
    (hf : ∀ (r : Reconstruction) (id : Nat), f r id = { r with views := pruneStep keep r.views id }) :
    ∀ (ids : List Nat) (r : Reconstruction),
      ids.foldl f r = { r with views := ids.foldl (pruneStep keep) r.views } := by
  intro ids
  induction ids with
  | nil => intro r; rfl
  | cons a rest ih =>
    intro r
    rw [List.foldl_cons, List.foldl_cons, hf r a, ih]

theorem trackFold_bridge (keep : Track → Bool) (f : Reconstruction → Nat → Reconstruction)
    (hf : ∀ (r : Reconstruction) (id : Nat), f r id = { r with tracks := pruneStep keep r.tracks id }) :
    ∀ (ids : List Nat) (r : Reconstruction),
      ids.foldl f r = { r with tracks := ids.foldl (pruneStep keep) r.tracks } := by
  intro ids
  induction ids with
  | nil => intro r; rfl
  | cons a rest ih =>
    intro r
    rw [List.foldl_cons, List.foldl_cons, hf r a, ih]

theorem pairFold_bridge (keep : View → Bool)
    (f : Reconstruction × ViewGraph → Nat → Reconstruction × ViewGraph)
    (hf : ∀ (rg : Reconstruction × ViewGraph) (id : Nat),
      f rg id = ({ rg.1 with views := (pairPruneStep keep (rg.1.views, rg.2) id).1 },
                 (pairPruneStep keep (rg.1.views, rg.2) id).2)) :
    ∀ (ids : List Nat) (r : Reconstruction) (g : ViewGraph),
      ids.foldl f (r, g) =
        ({ r with views := (ids.foldl (pairPruneStep keep) (r.views, g)).1 },
         (ids.foldl (pairPruneStep keep) (r.views, g)).2) := by
  intro ids
  induction ids with
  | nil => intro r g; rfl
  | cons a rest ih =>
    intro r g
    rw [List.foldl_cons, List.foldl_cons, hf (r, g) a, ih]

theorem filter_keys_cond {α : Type} (keep : α → Bool) (l : List (Nat × α)) (ids : List Nat)
    (h : ∀ p ∈ l, p.1 ∈ ids) :
    l.filter (fun p => !(decide (p.1 ∈ ids)) || keep p.2) = l.filter (fun p => keep p.2) :=
  List.filter_congr (fun p hp => by simp [h p hp])

theorem mem_keys_of_mem {α : Type} {l : List (Nat × α)} {p : Nat × α} (hp : p ∈ l) :
    p.1 ∈ akeys l :=
  List.mem_map.mpr ⟨p, hp, rfl⟩

theorem createSub_eq (r : Reconstruction) :
    createEstimatedSubreconstruction r =
      { r with views := r.viewIds.foldl (pruneStep (fun v => v.isEstimated)) r.views,
               tracks := r.trackIds.foldl (pruneStep (fun t => t.isEstimated)) r.tracks } := by
  have hfv : ∀ (r2 : Reconstruction) (id : Nat),
      (match r2.view id with
       | none => r2
       | some v => if v.isEstimated then r2 else r2.removeView id) =
      { r2 with views := pruneStep (fun v => v.isEstimated) r2.views id } := by
    intro r2 id
    unfold Reconstruction.view pruneStep Reconstruction.removeView
    cases alookup r2.views id with
    | none => rfl
    | some v => cases hv : v.isEstimated <;> simp [hv]
  have hft : ∀ (r2 : Reconstruction) (tid : Nat),
      (match r2.track tid with
       | none => r2
       | some t => if t.isEstimated then r2 else r2.removeTrack tid) =
      { r2 with tracks := pruneStep (fun t => t.isEstimated) r2.tracks tid } := by
    intro r2 tid
    unfold Reconstruction.track pruneStep Reconstruction.removeTrack
    cases alookup r2.tracks tid with
    | none => rfl
    | some t => cases ht : t.isEstimated <;> simp [ht]
  simp only [createEstimatedSubreconstruction]
  rw [viewFold_bridge (fun v => v.isEstimated) _ hfv,
      trackFold_bridge (fun t => t.isEstimated) _ hft]
  rfl

theorem removeEstimated_eq (r : Reconstruction) (g : ViewGraph) :
    removeEstimatedViewsAndTracks r g =
      ({ r with
          views := (r.viewIds.foldl (pairPruneStep (fun v => !v.isEstimated)) (r.views, g)).1,
          tracks := r.trackIds.foldl (pruneStep (fun t => !t.isEstimated)) r.tracks },
       (r.viewIds.foldl (pairPruneStep (fun v => !v.isEstimated)) (r.views, g)).2) := by
  have hfv : ∀ (rg : Reconstruction × ViewGraph) (id : Nat),
      (match rg.1.view id with
       | none => rg
       | some v => if v.isEstimated then (rg.1.removeView id, rg.2.removeView id) else rg) =
      ({ rg.1 with views := (pairPruneStep (fun v => !v.isEstimated) (rg.1.views, rg.2) id).1 },
       (pairPruneStep (fun v => !v.isEstimated) (rg.1.views, rg.2) id).2) := by
    intro rg id
    unfold Reconstruction.view pairPruneStep Reconstruction.removeView
    cases alookup rg.1.views id with
    | none => rfl
    | some v => cases hv : v.isEstimated <;> simp [hv]
  have hft : ∀ (r2 : Reconstruction) (tid : Nat),
      (match r2.track tid with
       | none => r2
       | some t => if t.isEstimated then r2.removeTrack tid else r2) =
      { r2 with tracks := pruneStep (fun t => !t.isEstimated) r2.tracks tid } := by
    intro r2 tid
    unfold Reconstruction.track pruneStep Reconstruction.removeTrack
    cases alookup r2.tracks tid with
    | none => rfl
    | some t => cases ht : t.isEstimated <;> simp [ht]
  simp only [removeEstimatedViewsAndTracks]
  rw [pairFold_bridge (fun v => !v.isEstimated) _ hfv,
      trackFold_bridge (fun t => !t.isEstimated) _ hft]
  rfl

theorem removeUncalibrated_eq (r : Reconstruction) (g : ViewGraph) :
    removeUncalibratedViews r g =
      ({ r with views := (r.viewIds.foldl (pairPruneStep (fun v => v.focalSet)) (r.views, g)).1 },
       (r.viewIds.foldl (pairPruneStep (fun v => v.focalSet)) (r.views, g)).2) := by
  have hfv : ∀ (rg : Reconstruction × ViewGraph) (id : Nat),
      (match rg.1.view id with
       | none => rg
       | some v => if v.focalSet then rg else (rg.1.removeView id, rg.2.removeView id)) =
      ({ rg.1 with views := (pairPruneStep (fun v => v.focalSet) (rg.1.views, rg.2) id).1 },
       (pairPruneStep (fun v => v.focalSet) (rg.1.views, rg.2) id).2) := by
    intro rg id
    unfold Reconstruction.view pairPruneStep Reconstruction.removeView
    cases alookup rg.1.views id with
    | none => rfl
    | some v => cases hv : v.focalSet <;> simp [hv]
  simp only [removeUncalibratedViews]
  rw [pairFold_bridge (fun v => v.focalSet) _ hfv]

theorem createSub_views (r : Reconstruction) (hv : (akeys r.views).Nodup) :
    (createEstimatedSubreconstruction r).views = r.views.filter (fun p => p.2.isEstimated) := by
  rw [createSub_eq]
  show r.viewIds.foldl (pruneStep (fun v => v.isEstimated)) r.views = _
  rw [pruneFold_eq_filter (fun v => v.isEstimated) r.viewIds r.views hv]
  exact filter_keys_cond _ _ _ (fun p hp => mem_keys_of_mem hp)

theorem createSub_tracks (r : Reconstruction) (ht : (akeys r.tracks).Nodup) :
    (createEstimatedSubreconstruction r).tracks = r.tracks.filter (fun p => p.2.isEstimated) := by
  rw [createSub_eq]
  show r.trackIds.foldl (pruneStep (fun t => t.isEstimated)) r.tracks = _
  rw [pruneFold_eq_filter (fun t => t.isEstimated) r.trackIds r.tracks ht]
  exact filter_keys_cond _ _ _ (fun p hp => mem_keys_of_mem hp)

theorem removeEstimated_fst_views (r : Reconstruction) (g : ViewGraph)
    (hv : (akeys r.views).Nodup) :
    (removeEstimatedViewsAndTracks r g).1.views = r.views.filter (fun p => !p.2.isEstimated) := by
  rw [removeEstimated_eq]
  show (r.viewIds.foldl (pairPruneStep (fun v => !v.isEstimated)) (r.views, g)).1 = _
  rw [pairPruneFold_eq (fun v => !v.isEstimated) r.viewIds r.views g hv]
  exact filter_keys_cond (fun v => !v.isEstimated) r.views r.viewIds
    (fun p hp => mem_keys_of_mem hp)

theorem removeEstimated_fst_tracks (r : Reconstruction) (g : ViewGraph)
    (ht : (akeys r.tracks).Nodup) :
    (removeEstimatedViewsAndTracks r g).1.tracks = r.tracks.filter (fun p => !p.2.isEstimated) := by
  rw [removeEstimated_eq]
  show r.trackIds.foldl (pruneStep (fun t => !t.isEstimated)) r.tracks = _
  rw [pruneFold_eq_filter (fun t => !t.isEstimated) r.trackIds r.tracks ht]
  exact filter_keys_cond (fun t => !t.isEstimated) r.tracks r.trackIds
    (fun p hp => mem_keys_of_mem hp)

theorem removeEstimated_snd (r : Reconstruction) (g : ViewGraph)
    (hv : (akeys r.views).Nodup) :
    (removeEstimatedViewsAndTracks r g).2 = removeViewSet g (estimatedViewIds r) := by
  rw [removeEstimated_eq]
  show (r.viewIds.foldl (pairPruneStep (fun v => !v.isEstimated)) (r.views, g)).2 = _
  rw [pairPruneFold_eq (fun v => !v.isEstimated) r.viewIds r.views g hv]
  rfl

theorem removeUncalibrated_fst_views (r : Reconstruction) (g : ViewGraph)
    (hv : (akeys r.views).Nodup) :
    (removeUncalibratedViews r g).1.views = r.views.filter (fun p => p.2.focalSet) := by
  rw [removeUncalibrated_eq]
  show (r.viewIds.foldl (pairPruneStep (fun v => v.focalSet)) (r.views, g)).1 = _
  rw [pairPruneFold_eq (fun v => v.focalSet) r.viewIds r.views g hv]
  exact filter_keys_cond (fun v => v.focalSet) r.views r.viewIds
    (fun p hp => mem_keys_of_mem hp)

theorem removeUncalibrated_fst_tracks (r : Reconstruction) (g : ViewGraph) :
    (removeUncalibratedViews r g).1.tracks = r.tracks := by
  rw [removeUncalibrated_eq]

theorem removeUncalibrated_snd (r : Reconstruction) (g : ViewGraph)
    (hv : (akeys r.views).Nodup) :
    (removeUncalibratedViews r g).2 =
      removeViewSet g (r.viewIds.filter (fun id => removedIn (fun v => v.focalSet) r.views id)) := by
  rw [removeUncalibrated_eq]
  show (r.viewIds.foldl (pairPruneStep (fun v => v.focalSet)) (r.views, g)).2 = _
  rw [pairPruneFold_eq (fun v => v.focalSet) r.viewIds r.views g hv]

theorem mem_addVertex {g : ViewGraph} {x id : ViewId} :
    x ∈ (g.addVertex id).vviews ↔ x ∈ g.vviews ∨ x = id := by
  unfold ViewGraph.addVertex
  by_cases h : id ∈ g.vviews
  · rw [if_pos (by simpa using h)]
    constructor
    · exact Or.inl
    · intro hx
      rcases hx with hx | hx
      · exact hx
      · rw [hx]
        exact h
  · rw [if_neg (by simpa using h)]
    simp [List.mem_append]

theorem viewIdFromName_mem {r : Reconstruction} {nm : String} {id : ViewId}
    (h : r.viewIdFromName nm = some id) : id ∈ r.viewIds := by
  unfold Reconstruction.viewIdFromName at h
  cases hf : r.views.find? (fun p => p.2.name == nm) with
  | none =>
    rw [hf] at h
    simp at h
  | some p =>
    rw [hf] at h
    simp at h
    have hm := List.mem_of_find?_eq_some hf
    rw [← h]
    exact mem_keys_of_mem hm

theorem prunePair_sync (keep : View → Bool) (r : Reconstruction) (g : ViewGraph)
    (hs : viewsInSync g r) (R : Reconstruction × ViewGraph)
    (hR1 : R.1.views = r.views.filter (fun p => keep p.2))
    (hR2 : R.2 = removeViewSet g (r.viewIds.filter (fun id => removedIn keep r.views id))) :
    viewsInSync R.2 R.1 := by
  intro id hid
  rw [hR2] at hid
  simp only [removeViewSet] at hid
  rcases List.mem_filter.mp hid with ⟨hgv, hnot⟩
  have hidr : id ∈ r.viewIds := hs id hgv
  have hnotS : id ∉ r.viewIds.filter (fun id => removedIn keep r.views id) := by
    intro hmem
    simp [hmem] at hnot
  have hrm : removedIn keep r.views id = false := by
    cases hb : removedIn keep r.views id with
    | false => rfl
    | true => exact absurd (List.mem_filter.mpr ⟨hidr, hb⟩) hnotS
  rcases alookup_isSome_of_mem_keys hidr with ⟨v, hvk⟩
  have hkeep : keep v = true := by
    have : removedIn keep r.views id = !(keep v) := by simp [removedIn, hvk]
    rw [this] at hrm
    simpa using hrm
  show id ∈ akeys R.1.views
  rw [hR1]
  exact mem_keys_of_mem (List.mem_filter.mpr ⟨alookup_eq_some_mem hvk, hkeep⟩)

/-- C2: after a successful estimation round, the snapshot
(`CreateEstimatedSubreconstruction`) contains exactly the views and exactly
the tracks flagged estimated (the snapshot is a value of its own, hence
independent of the working scene), and `RemoveEstimatedViewsAndTracks` then
removes exactly those estimated views from both the working reconstruction
and the working view graph, and exactly the estimated tracks from the working
reconstruction.  The id-keyed containers have distinct keys, expressed by the
two `Nodup` hypotheses. -/
theorem claim_C2 (r : Reconstruction) (g : ViewGraph)
    (hv : (akeys r.views).Nodup) (ht : (akeys r.tracks).Nodup) :
    (createEstimatedSubreconstruction r).views = r.views.filter (fun p => p.2.isEstimated) ∧
    (createEstimatedSubreconstruction r).tracks = r.tracks.filter (fun p => p.2.isEstimated) ∧
    (removeEstimatedViewsAndTracks r g).1.views = r.views.filter (fun p => !p.2.isEstimated) ∧
    (removeEstimatedViewsAndTracks r g).1.tracks = r.tracks.filter (fun p => !p.2.isEstimated) ∧
    (removeEstimatedViewsAndTracks r g).2 = removeViewSet g (estimatedViewIds r) :=
  ⟨createSub_views r hv, createSub_tracks r ht, removeEstimated_fst_views r g hv,
   removeEstimated_fst_tracks r g ht, removeEstimated_snd r g hv⟩

/-- Witness for C2 at a concrete two-view, two-track scene. -/
theorem claim_C2_witness :
    (createEstimatedSubreconstruction c2r).views = c2r.views.filter (fun p => p.2.isEstimated) ∧
    (createEstimatedSubreconstruction c2r).tracks = c2r.tracks.filter (fun p => p.2.isEstimated) ∧
    (removeEstimatedViewsAndTracks c2r c2g).1.views =
      c2r.views.filter (fun p => !p.2.isEstimated) ∧
    (removeEstimatedViewsAndTracks c2r c2g).1.tracks =
      c2r.tracks.filter (fun p => !p.2.isEstimated) ∧
    (removeEstimatedViewsAndTracks c2r c2g).2 = removeViewSet c2g (estimatedViewIds c2r) :=
  claim_C2 c2r c2g (by decide) (by decide)

/-- C7: the calibration-filter step `RemoveUncalibratedViews` is idempotent —
applied to its own result it removes nothing, leaving the reconstruction and
the view graph unchanged. -/
theorem claim_C7 (r : Reconstruction) (g : ViewGraph) (hv : (akeys r.views).Nodup) :
    removeUncalibratedViews (removeUncalibratedViews r g).1 (removeUncalibratedViews r g).2 =
      removeUncalibratedViews r g := by
  have hviews : (removeUncalibratedViews r g).1.views =
      r.views.filter (fun p => p.2.focalSet) := removeUncalibrated_fst_views r g hv
  have hnod : (akeys (removeUncalibratedViews r g).1.views).Nodup := by
    rw [hviews]
    exact List.Nodup.sublist ((List.filter_sublist _).map Prod.fst) hv
  have hall : ∀ p ∈ (removeUncalibratedViews r g).1.views, p.2.focalSet = true := by
    intro p hp
    rw [hviews] at hp
    exact (List.mem_filter.mp hp).2
  rw [removeUncalibrated_eq (removeUncalibratedViews r g).1 (removeUncalibratedViews r g).2,
      pairPruneFold_eq (fun v => v.focalSet) _ _ _ hnod]
  have hF : (removeUncalibratedViews r g).1.views.filter
      (fun p => !(decide (p.1 ∈ (removeUncalibratedViews r g).1.viewIds)) || p.2.focalSet) =
      (removeUncalibratedViews r g).1.views := by
    refine (List.filter_congr ?_).trans (List.filter_true _)
    intro p hp
    have hmem : p.1 ∈ (removeUncalibratedViews r g).1.viewIds := mem_keys_of_mem hp
    simp [hmem, hall p hp]
  have hS : (removeUncalibratedViews r g).1.viewIds.filter
      (fun id => removedIn (fun v => v.focalSet) (removeUncalibratedViews r g).1.views id) =
      [] := by
    refine (List.filter_congr ?_).trans (List.filter_false _)
    intro id hid
    rcases alookup_isSome_of_mem_keys hid with ⟨v, hv2⟩
    have hfs : v.focalSet = true := hall (id, v) (alookup_eq_some_mem hv2)
    simp [removedIn, hv2, hfs]
  rw [hF, hS, removeViewSet_nil]

/-- Witness for C7 at a concrete mixed-calibration scene. -/
theorem claim_C7_witness :
    removeUncalibratedViews (removeUncalibratedViews c2r c2g).1 (removeUncalibratedViews c2r c2g).2 =
      removeUncalibratedViews c2r c2g :=
  claim_C7 c2r c2g (by decide)

/-- C9: the view-removing orchestration operations (the calibration filter and
the post-round removal of estimated views) mirror every view removal in both
the working reconstruction and the working view graph, so the invariant that
every view id present in the view graph is also present in the reconstruction
is preserved; match ingestion (`AddTwoViewMatch`), the only operation that
adds view-graph vertices, also preserves it. -/
theorem claim_C9 :
    (∀ (r : Reconstruction) (g : ViewGraph), (akeys r.views).Nodup → viewsInSync g r →
       viewsInSync (removeUncalibratedViews r g).2 (removeUncalibratedViews r g).1) ∧
    (∀ (r : Reconstruction) (g : ViewGraph), (akeys r.views).Nodup → viewsInSync g r →
       viewsInSync (removeEstimatedViewsAndTracks r g).2 (removeEstimatedViewsAndTracks r g).1) ∧
    (∀ (st : BuilderState) (img1 img2 : String) (m : ImagePairMatch) (res : Bool × BuilderState),
       viewsInSync st.viewGraph st.reconstruction →
       addTwoViewMatch st img1 img2 m = some res →
       viewsInSync res.2.viewGraph res.2.reconstruction) := by
  refine ⟨?_, ?_, ?_⟩
  · intro r g hv hs
    exact prunePair_sync (fun v => v.focalSet) r g hs _
      (removeUncalibrated_fst_views r g hv) (removeUncalibrated_snd r g hv)
  · intro r g hv hs
    exact prunePair_sync (fun v => !v.isEstimated) r g hs _
      (removeEstimated_fst_views r g hv) (removeEstimated_snd r g hv)
  · intro st img1 img2 m res hs hadd
    unfold addTwoViewMatch at hadd
    split at hadd
    · rename_i id1 id2 h1 h2
      split at hadd
      · rename_i v1 v2 h3 h4
        split at hadd
        · have hres : res = (true, st) := by
            injection hadd with h
            exact h.symm
          rw [hres]
          exact hs
        · have hres : res = (true, { st with
              viewGraph := addMatchToViewGraph st.viewGraph id1 id2 m,
              trackBuilder := addTracksForMatch st.trackBuilder id1 id2 m }) := by
            injection hadd with h
            exact h.symm
          rw [hres]
          intro id hid
          have hid2 : id ∈ st.viewGraph.vviews ∨ id = id1 ∨ id = id2 := by
            simp only [addMatchToViewGraph, ViewGraph.addEdge] at hid
            rcases mem_addVertex.mp hid with h | h
            · rcases mem_addVertex.mp h with h | h
              · exact Or.inl h
              · exact Or.inr (Or.inl h)
            · exact Or.inr (Or.inr h)
          rcases hid2 with h | h | h
          · exact hs id h
          · rw [h]
            exact viewIdFromName_mem h1
          · rw [h]
            exact viewIdFromName_mem h2
      · exact absurd hadd (by simp)
    · exact absurd hadd (by simp)

theorem buildLoop_ne_fatal (opts : ReconstructionBuilderOptions) :
    ∀ (script : List EstimatorSummary) (r : Reconstruction) (g : ViewGraph)
      (outs : List Reconstruction), buildLoop opts script r g outs ≠ .fatal := by
  intro script
  induction script with
  | nil =>
    intro r g outs
    simp only [buildLoop]
    split <;> simp
  | cons s rest ih =>
    intro r g outs
    simp only [buildLoop]
    split
    · split
      · split
        · simp
        · split
          · simp
          · exact ih _ _ _
      · simp
    · simp

theorem buildLoop_done_ok (opts : ReconstructionBuilderOptions) :
    ∀ (script : List EstimatorSummary) (r : Reconstruction) (g : ViewGraph)
      (outs : List Reconstruction) (ok : Bool) (outs2 : List Reconstruction)
      (pr : Reconstruction × ViewGraph),
      1 < r.numViews →
      buildLoop opts script r g outs = .done ok outs2 pr →
      ok = decide (0 < outs2.length) := by
  intro script
  induction script with
  | nil =>
    intro r g outs ok outs2 pr hn h
    simp only [buildLoop] at h
    rw [if_pos hn] at h
    exact absurd h (by simp)
  | cons s rest ih =>
    intro r g outs ok outs2 pr hn h
    simp only [buildLoop] at h
    rw [if_pos hn] at h
    by_cases hs : s.success = true
    · rw [if_pos hs] at h
      by_cases hr : opts.reconstructLargestConnectedComponent = true
      · rw [if_pos hr] at h
        injection h with h1 h2 h3
        subst h1
        subst h2
        rfl
      · rw [if_neg hr] at h
        by_cases h3v : (removeEstimatedViewsAndTracks (markEstimated r s) g).1.numViews < 3
        · rw [if_pos h3v] at h
          injection h with h1 h2 h3
          subst h1
          subst h2
          rfl
        · rw [if_neg h3v] at h
          exact ih _ _ _ ok outs2 pr (by omega) h
    · rw [if_neg hs] at h
      injection h with h1 h2 h3
      subst h1
      subst h2
      rfl

/-- C1, amended: on every completed run, the overall boolean result is `true`
exactly when either the output list is non-empty or the estimation loop was
never entered (the working reconstruction had at most one view after
preprocessing — the corner the counterexample exhibits, in which
`BuildReconstruction` returns `true` with zero reconstructions).  In
particular, when a round fails the loop stops and the result is "at least one
reconstruction was produced". -/
theorem claim_C1_amended (opts : ReconstructionBuilderOptions) (tb : TrackBuilder)
    (script : List EstimatorSummary) (r : Reconstruction) (g : ViewGraph)
    (ok : Bool) (outs : List Reconstruction) (pr : Reconstruction × ViewGraph)
    (h : buildReconstruction opts tb script r g = .done ok outs pr) :
    ok = true ↔ (outs ≠ [] ∨ (preprocessedState opts tb r g).1.numViews ≤ 1) := by
  unfold buildReconstruction at h
  by_cases hg : g.numViews < 2
  · rw [if_pos hg] at h
    exact absurd h (by simp)
  · rw [if_neg hg] at h
    by_cases hn : 1 < (preprocessedState opts tb r g).1.numViews
    · have hok := buildLoop_done_ok opts script _ _ [] ok outs pr hn h
      rw [hok]
      constructor
      · intro hd
        exact Or.inl (List.length_pos.mp (of_decide_eq_true hd))
      · intro hd
        rcases hd with hd | hd
        · exact decide_eq_true (List.length_pos.mpr hd)
        · exact absurd hd (by omega)
    · have hloop : buildLoop opts script (preprocessedState opts tb r g).1
          (preprocessedState opts tb r g).2 [] =
          .done true [] ((preprocessedState opts tb r g).1, (preprocessedState opts tb r g).2) := by
        cases script with
        | nil =>
          simp only [buildLoop]
          rw [if_neg hn]
        | cons s rest =>
          simp only [buildLoop]
          rw [if_neg hn]
      rw [hloop] at h
      injection h with h1 h2 h3
      subst h1
      subst h2
      constructor
      · intro _
        exact Or.inr (by omega)
      · intro _
        rfl

/-- C1 counterexample: with only-calibrated-views mode and two uncalibrated
views, the entry `CHECK` passes (the view graph has two views), preprocessing
empties the working reconstruction, the loop never runs, and
`BuildReconstruction` completes returning `true` with zero output
reconstructions — so "zero reconstructions overall is reported as failure"
is false as stated. -/
theorem claim_C1_counterexample :
    (buildReconstruction c1opts c1tb [] c1r c1g).isDone = true ∧
    (buildReconstruction c1opts c1tb [] c1r c1g).okOf = true ∧
    (buildReconstruction c1opts c1tb [] c1r c1g).numOut = 0 := by
  decide

/-- Witness for the amended C1 at the concrete degenerate run. -/
theorem claim_C1_witness :
    true = true ↔
      (([] : List Reconstruction) ≠ [] ∨ (preprocessedState c1opts c1tb c1r c1g).1.numViews ≤ 1) :=
  claim_C1_amended c1opts c1tb [] c1r c1g true [] c1end (by decide)

/-- C3, amended: tracks are built once, before the estimation loop — when the
reconstruction has no tracks at the time `BuildReconstruction` is called, the
first estimator invocation (and only the first) receives the reconstruction
with tracks built from the accumulated correspondences; the calibration
filter does not touch tracks. -/
theorem claim_C3_amended (opts : ReconstructionBuilderOptions) (tb : TrackBuilder)
    (script : List EstimatorSummary) (r : Reconstruction) (g : ViewGraph)
    (r0 : Reconstruction) (rest : List Reconstruction)
    (h : estimatorInputsTop opts tb script r g = r0 :: rest) :
    r0.tracks = (if r.numTracks == 0 then tb.buildTracks r else r).tracks := by
  unfold estimatorInputsTop at h
  by_cases hg : g.numViews < 2
  · rw [if_pos hg] at h
    exact absurd h (by simp)
  · rw [if_neg hg] at h
    cases script with
    | nil => exact absurd h (by simp [estimatorInputs])
    | cons s rest2 =>
      simp only [estimatorInputs] at h
      by_cases hn : 1 < (preprocessedState opts tb r g).1.numViews
      · rw [if_pos hn] at h
        have h0 : r0 = (preprocessedState opts tb r g).1 := by
          injection h with h1 h2
          exact h1.symm
        rw [h0]
        unfold preprocessedState
        by_cases hc : opts.onlyCalibratedViews = true
        · rw [if_pos hc]
          exact removeUncalibrated_fst_tracks _ g
        · rw [if_neg hc]
      · rw [if_neg hn] at h
        exact absurd h (by simp)

/-- C3 counterexample: a two-round run in which round 1 succeeds and consumes
all tracks; round 2 invokes the estimator on a working reconstruction with
zero tracks and more than one view, although building tracks from the
accumulated correspondences would produce tracks — so tracks are *not* built
"on every iteration" before the estimator is invoked. -/
theorem claim_C3_counterexample :
    (estimatorInputsTop c3opts c3tb c3script c3r c3g).length = 2 ∧
    c3second.numTracks = 0 ∧
    1 < c3second.numViews ∧
    0 < (c3tb.buildTracks c3second).numTracks := by
  decide

/-- Witness for the amended C3 at the concrete two-round run. -/
theorem claim_C3_witness :
    c3first.tracks = (if c3r.numTracks == 0 then c3tb.buildTracks c3r else c3r).tracks :=
  claim_C3_amended c3opts c3tb c3script c3r c3g c3first c3rest (by decide)

theorem buildLoop_rlcc_le (opts : ReconstructionBuilderOptions)
    (hr : opts.reconstructLargestConnectedComponent = true)
    (script : List EstimatorSummary) (r : Reconstruction) (g : ViewGraph)
    (outs : List Reconstruction) :
    (buildLoop opts script r g outs).numOut ≤ outs.length + 1 := by
  cases script with
  | nil =>
    simp only [buildLoop]
    split <;> simp [BuildOutcome.numOut, BuildOutcome.outsOf]
  | cons s rest =>
    simp only [buildLoop]
    by_cases hn : 1 < r.numViews
    · rw [if_pos hn]
      by_cases hs : s.success = true
      · rw [if_pos hs, if_pos hr]
        simp [BuildOutcome.numOut, BuildOutcome.outsOf]
      · rw [if_neg hs]
        simp [BuildOutcome.numOut, BuildOutcome.outsOf]
    · rw [if_neg hn]
      simp [BuildOutcome.numOut, BuildOutcome.outsOf]

/-- C4: in single-largest-component mode every run produces at most one
output reconstruction; and on a concrete scene with two disjoint components
(sizes 2 and 3) estimated one per round, the run with the mode off yields two
reconstructions while the same input with the mode on yields one. -/
theorem claim_C4 :
    (∀ (opts : ReconstructionBuilderOptions) (tb : TrackBuilder)
        (script : List EstimatorSummary) (r : Reconstruction) (g : ViewGraph),
        opts.reconstructLargestConnectedComponent = true →
        (buildReconstruction opts tb script r g).numOut ≤ 1) ∧
    (buildReconstruction c3opts c4tb c4script c4r c4g).okOf = true ∧
    (buildReconstruction c3opts c4tb c4script c4r c4g).numOut = 2 ∧
    (buildReconstruction c4onOpts c4tb c4script c4r c4g).okOf = true ∧
    (buildReconstruction c4onOpts c4tb c4script c4r c4g).numOut = 1 := by
  refine ⟨?_, by decide, by decide, by decide, by decide⟩
  intro opts tb script r g hr
  unfold buildReconstruction
  by_cases hg : g.numViews < 2
  · rw [if_pos hg]
    simp [BuildOutcome.numOut, BuildOutcome.outsOf]
  · rw [if_neg hg]
    have hle := buildLoop_rlcc_le opts hr script (preprocessedState opts tb r g).1
      (preprocessedState opts tb r g).2 []
    simpa using hle

/-- Witness for C4's universal part at the concrete single-component-mode
run. -/
theorem claim_C4_witness :
    (buildReconstruction c4onOpts c4tb c4script c4r c4g).numOut ≤ 1 :=
  claim_C4.1 c4onOpts c4tb c4script c4r c4g rfl

/-- C6: precondition violations are fatal (modelled as `none`/`.fatal`
outcomes, i.e. process termination), and under the contrapositive
preconditions the fatal branches are unreachable: a constructor call with
positive thread count succeeds, and `BuildReconstruction` on a view graph
with at least two views never hits its entry `CHECK`. -/
theorem claim_C6 :
    (∀ (opts : ReconstructionBuilderOptions) (r : Reconstruction) (g : ViewGraph)
        (tb : TrackBuilder), opts.numThreads ≤ 0 →
        mkReconstructionBuilderFromScene opts r g tb = none ∧
        mkReconstructionBuilderFromDb opts = none) ∧
    (∀ (opts : ReconstructionBuilderOptions) (r : Reconstruction) (g : ViewGraph)
        (tb : TrackBuilder), 0 < opts.numThreads →
        (mkReconstructionBuilderFromScene opts r g tb).isSome = true ∧
        (mkReconstructionBuilderFromDb opts).isSome = true) ∧
    (∀ (opts : ReconstructionBuilderOptions) (tb : TrackBuilder)
        (script : List EstimatorSummary) (r : Reconstruction) (g : ViewGraph),
        g.numViews < 2 → buildReconstruction opts tb script r g = .fatal) ∧
    (∀ (opts : ReconstructionBuilderOptions) (tb : TrackBuilder)
        (script : List EstimatorSummary) (r : Reconstruction) (g : ViewGraph),
        2 ≤ g.numViews → buildReconstruction opts tb script r g ≠ .fatal) := by
  refine ⟨?_, ?_, ?_, ?_⟩
  · intro opts r g tb h
    constructor
    · simp [mkReconstructionBuilderFromScene, h]
    · simp [mkReconstructionBuilderFromDb, h]
  · intro opts r g tb h
    have h2 : ¬opts.numThreads ≤ 0 := by omega
    constructor
    · simp [mkReconstructionBuilderFromScene, h2]
    · simp [mkReconstructionBuilderFromDb, h2]
  · intro opts tb script r g h
    simp [buildReconstruction, h]
  · intro opts tb script r g h
    have h2 : ¬g.numViews < 2 := by omega
    simp only [buildReconstruction, if_neg h2]
    exact buildLoop_ne_fatal opts script _ _ []

/-- Witness for C6: the fatal and non-fatal branches at concrete inputs. -/
theorem claim_C6_witness :
    mkReconstructionBuilderFromScene c6badOpts c1r c1g c1tb = none ∧
    (mkReconstructionBuilderFromScene c1opts c1r c1g c1tb).isSome = true ∧
    buildReconstruction c1opts c1tb [] c1r emptyViewGraph = .fatal ∧
    buildReconstruction c1opts c1tb [] c1r c1g ≠ .fatal :=
  ⟨(claim_C6.1 c6badOpts c1r c1g c1tb (by decide)).1,
   (claim_C6.2.1 c1opts c1r c1g c1tb (by decide)).1,
   claim_C6.2.2.1 c1opts c1tb [] c1r emptyViewGraph (by decide),
   claim_C6.2.2.2 c1opts c1tb [] c1r c1g (by decide)⟩

theorem addVertex_edges (g : ViewGraph) (id : ViewId) : (g.addVertex id).edges = g.edges := by
  unfold ViewGraph.addVertex
  split <;> rfl

theorem find?_filter_append (l : List ((ViewId × ViewId) × TwoViewInfo))
    (key : ViewId × ViewId) (info : TwoViewInfo) :
    ((l.filter (fun e => !(decide (e.1 = key)))) ++ [(key, info)]).find?
      (fun e => decide (e.1 = key)) = some (key, info) := by
  induction l with
  | nil => simp [List.find?]
  | cons e rest ih =>
    rw [List.filter_cons]
    by_cases he : e.1 = key
    · rw [if_neg (by simp [he])]
      exact ih
    · rw [if_pos (by simp [he])]
      rw [List.cons_append, List.find?_cons_of_neg _ (by simp [he])]
      exact ih

theorem getEdge_addEdge (g : ViewGraph) (i j : ViewId) (info : TwoViewInfo) :
    (g.addEdge i j info).getEdge i j = some info := by
  unfold ViewGraph.addEdge ViewGraph.getEdge
  rw [find?_filter_append]
  rfl

/-- C5: `AddMatchToViewGraph` stores the two-view geometry directed from the
smaller view id to the larger: when the caller supplies the pair in the
opposite order (`id1 > id2`) the supplied geometry — the transform from
`id1` to `id2` — is swapped before the edge is inserted, so the edge stored
under the normalized key `(min, max)` always carries the transform from the
smaller to the larger identifier (`swapCameras` being the direction
reversal). -/
theorem claim_C5 (g : ViewGraph) (id1 id2 : ViewId) (m : ImagePairMatch) (h : id1 ≠ id2) :
    (addMatchToViewGraph g id1 id2 m).getEdge id1 id2 =
      some (if id1 < id2 then m.twoviewInfo else swapCameras m.twoviewInfo) := by
  unfold addMatchToViewGraph
  rw [getEdge_addEdge]
  by_cases hlt : id1 < id2
  · have hgt : ¬id1 > id2 := Nat.not_lt.mpr (Nat.le_of_lt hlt)
    rw [if_neg hgt, if_pos hlt]
  · have hgt : id1 > id2 :=
      Nat.lt_of_le_of_ne (Nat.not_lt.mp hlt) (fun he => h he.symm)
    rw [if_pos hgt, if_neg hlt]

/-- Witness for C5 at the reversed pair (2, 1). -/
theorem claim_C5_witness :
    (addMatchToViewGraph c2g 2 1 c10m).getEdge 2 1 =
      some (if 2 < 1 then c10m.twoviewInfo else swapCameras c10m.twoviewInfo) :=
  claim_C5 c2g 2 1 c10m (by decide)

/-- Witness for C9: the sync invariant at a concrete scene, through the
calibration filter, the estimated-view removal, and one match ingestion. -/
theorem claim_C9_witness :
    viewsInSync (removeUncalibratedViews c2r c2g).2 (removeUncalibratedViews c2r c2g).1 ∧
    viewsInSync (removeEstimatedViewsAndTracks c2r c2g).2
      (removeEstimatedViewsAndTracks c2r c2g).1 ∧
    viewsInSync (true, c10st).2.viewGraph (true, c10st).2.reconstruction :=
  ⟨claim_C9.1 c2r c2g (by decide) (by decide),
   claim_C9.2.1 c2r c2g (by decide) (by decide),
   claim_C9.2.2 c10st "a" "b" c10m (true, c10st) (by decide) (by decide)⟩

theorem addTwoViewMatch_matcher (st : BuilderState) (i1 i2 : String) (m : ImagePairMatch)
    (pr : Bool × BuilderState) (h : addTwoViewMatch st i1 i2 m = some pr) :
    pr.2.matcherActive = st.matcherActive := by
  unfold addTwoViewMatch at h
  split at h
  · split at h
    · split at h
      · injection h with h2
        rw [← h2]
      · injection h with h2
        rw [← h2]
    · exact absurd h (by simp)
  · exact absurd h (by simp)

theorem ingestMatches_matcher :
    ∀ (ms : List ((String × String) × ImagePairMatch)) (st st2 : BuilderState),
      ingestMatches st ms = some st2 → st2.matcherActive = st.matcherActive := by
  intro ms
  induction ms with
  | nil =>
    intro st st2 h
    simp only [ingestMatches] at h
    injection h with h2
    rw [← h2]
  | cons km rest ih =>
    intro st st2 h
    obtain ⟨k, mm⟩ := km
    simp only [ingestMatches] at h
    cases ha : addTwoViewMatch st k.1 k.2 mm with
    | none =>
      rw [ha] at h
      exact absurd h (by simp)
    | some pr =>
      rw [ha] at h
      rw [ih pr.2 st2 h, addTwoViewMatch_matcher st _ _ _ pr ha]

/-- C8: the extract-and-match step is one-time and ordered before match
ingestion — calling `ExtractAndMatchFeatures` when the view graph already
contains views is fatal (`CHECK_EQ(view_graph_->NumViews(), 0)`); and after a
successful extract-and-match step the matcher has been released, so adding a
further (addable) image is fatal (null dereference of the released matcher),
as is running the extract step a second time. -/
theorem claim_C8 :
    (∀ (st : BuilderState) (db : MatchesDb), st.viewGraph.numViews ≠ 0 →
        extractAndMatchFeatures st db = none) ∧
    (∀ (st : BuilderState) (db : MatchesDb) (st2 : BuilderState),
        extractAndMatchFeatures st db = some st2 →
        (∀ (nm : String) (prior : Option Bool) (vid : ViewId) (r1 : Reconstruction),
            st2.reconstruction.addView nm = (some vid, r1) → addImage st2 nm prior = none) ∧
        (∀ db2 : MatchesDb, extractAndMatchFeatures st2 db2 = none)) := by
  constructor
  · intro st db h
    simp [extractAndMatchFeatures, h]
  · intro st db st2 h
    have hm : st2.matcherActive = false := by
      unfold extractAndMatchFeatures at h
      by_cases h1 : st.viewGraph.numViews ≠ 0
      · rw [if_pos h1] at h
        exact absurd h (by simp)
      · rw [if_neg h1] at h
        by_cases h2 : st.matcherActive = false
        · rw [if_pos h2] at h
          exact absurd h (by simp)
        · rw [if_neg h2] at h
          cases hp : applyPriors st.reconstruction db.priors with
          | none =>
            rw [hp] at h
            exact absurd h (by simp)
          | some r1 =>
            rw [hp] at h
            exact ingestMatches_matcher db.pairMatches _ st2 h
    constructor
    · intro nm prior vid r1 hadd
      unfold addImage
      rw [hadd]
      cases prior <;> simp [hm]
    · intro db2
      unfold extractAndMatchFeatures
      by_cases h1 : st2.viewGraph.numViews ≠ 0
      · rw [if_pos h1]
      · rw [if_neg h1, if_pos hm]

/-- Witness for C8: a concrete extract-and-match run, after which adding a
fresh image and re-running the extract step are both fatal. -/
theorem claim_C8_witness :
    addImage c8end "c" none = none ∧ extractAndMatchFeatures c8end c8db = none :=
  ⟨(claim_C8.2 c8st c8db c8end (by decide)).1 "c" none c8end.reconstruction.nextViewId c8r1
     (by decide),
   (claim_C8.2 c8st c8db c8end (by decide)).2 c8db⟩

/-- C10: with the only-calibrated-views option enabled, a two-view match
either of whose views lacks a set focal-length prior is silently skipped —
`AddTwoViewMatch` returns `true` (success) and the whole builder state (view
graph and track builder included) is returned unchanged. -/
theorem claim_C10 (st : BuilderState) (img1 img2 : String) (m : ImagePairMatch)
    (id1 id2 : ViewId) (v1 v2 : View)
    (hOpt : st.options.onlyCalibratedViews = true)
    (h1 : st.reconstruction.viewIdFromName img1 = some id1)
    (h2 : st.reconstruction.viewIdFromName img2 = some id2)
    (hv1 : st.reconstruction.view id1 = some v1)
    (hv2 : st.reconstruction.view id2 = some v2)
    (hcal : v1.focalSet = false ∨ v2.focalSet = false) :
    addTwoViewMatch st img1 img2 m = some (true, st) := by
  rcases hcal with hc | hc <;>
    simp [addTwoViewMatch, h1, h2, hv1, hv2, hOpt, hc]

/-- Witness for C10: a concrete skipped match (view "b" has no focal
prior). -/
theorem claim_C10_witness : addTwoViewMatch c10st "a" "b" c10m = some (true, c10st) :=
  claim_C10 c10st "a" "b" c10m 0 1 (mkView "a" true false) (mkView "b" false false)
    (by decide) (by decide) (by decide) (by decide) (by decide) (Or.inr (by decide))

end TheiaSfM
